import Mathlib

/-!
Verification of the NetherPortal Obsidian GitHub-sync plugin.

Shallow embedding of the orchestration logic in src/src/main.ts,
src/src/gitManager.ts and src/src/settings.ts.  Pure functions of the
source become Lean functions; the stateful interaction with the
underlying git library (simple-git) is modelled by an explicit
environment record describing the outcome of each primitive git call,
plus an explicit operation log recording which repository operations
the orchestration code invoked and in which order.

All string primitives are implemented structurally (over lists of
characters) so that every definition evaluates by kernel reduction.
-/

namespace NetherPortal

/-! ## String primitives

JavaScript string operations used by the source.  Note that
JavaScript `String.prototype.replace` with a string pattern replaces
only the FIRST occurrence of the pattern. -/

/-- Does the second list start with the first? -/
def prefixOfList : List Char → List Char → Bool
  | [], _ => true
  | _ :: _, [] => false
  | p :: ps, c :: cs => p == c && prefixOfList ps cs

/-- Replace the first (leftmost) occurrence of `pat` in the list. -/
def replaceFirstChars (pat rep : List Char) : List Char → List Char
  | [] => []
  | c :: cs =>
    if prefixOfList pat (c :: cs) then rep ++ (c :: cs).drop pat.length
    else c :: replaceFirstChars pat rep cs

/-- Is `pat` a contiguous sublist? (JavaScript `String.prototype.includes`.) -/
def containsChars (pat : List Char) : List Char → Bool
  | [] => pat.isEmpty
  | c :: cs => prefixOfList pat (c :: cs) || containsChars pat cs

/-- JavaScript `s.replace(pat, rep)` with a string pattern: first occurrence only. -/
def replaceFirst (s pat rep : String) : String :=
  ⟨replaceFirstChars pat.data rep.data s.data⟩

/-- JavaScript `s.includes(pat)`. -/
def containsStr (s pat : String) : Bool :=
  containsChars pat.data s.data

/-- JavaScript `s.endsWith(suffix)`. -/
def endsWithStr (s suf : String) : Bool :=
  prefixOfList suf.data.reverse s.data.reverse

/-- JavaScript `s.trim()`: drop whitespace from both ends. -/
def jsTrim (s : String) : String :=
  ⟨(((s.data.dropWhile Char.isWhitespace).reverse.dropWhile Char.isWhitespace).reverse)⟩

/-- JavaScript `s.split(sep)` for a one-character separator. -/
def splitOnCharAux (sep : Char) : List Char → List Char → List String
  | [], acc => [⟨acc.reverse⟩]
  | c :: cs, acc =>
    if c == sep then (⟨acc.reverse⟩ : String) :: splitOnCharAux sep cs []
    else splitOnCharAux sep cs (c :: acc)

def splitOnChar (sep : Char) (s : String) : List String :=
  splitOnCharAux sep s.data []

/-- Join with a separator (JavaScript `Array.prototype.join`). -/
def joinWith (sep : String) : List String → String
  | [] => ""
  | [x] => x
  | x :: y :: rest => x ++ sep ++ joinWith sep (y :: rest)

/-! ## Commit message construction (main.ts, getCommitMessage, lines 353-373)

The date string produced by `new Date().toLocaleString` is an input of
the model.  The file-list block is built exactly as in the source:
at most 10 paths, each rendered as a line beginning with two spaces and
a dash, plus a suffix naming the count of remaining files when there
are more than 10. -/

def filesLines (files : List String) : List String :=
  (files.take 10).map (fun f => "  - " ++ f)

def filesListStr (files : List String) : String :=
  joinWith "\n" (filesLines files)

def moreFilesStr (files : List String) : String :=
  if files.length > 10 then
    "\n  ... e mais " ++ toString (files.length - 10) ++ " arquivo(s)"
  else ""

def filesText (files : List String) : String :=
  "\nArquivos alterados:\n" ++ filesListStr files ++ moreFilesStr files

def getCommitMessage (template dateStr : String) (files : List String) : String :=
  let message := replaceFirst template "{date}" dateStr
  let message :=
    if !files.isEmpty then replaceFirst message "{files}" (filesText files)
    else replaceFirst message "{files}" ""
  jsTrim message

/-- JavaScript `s.startsWith(pre)`. -/
def startsWithStr (s pre : String) : Bool :=
  prefixOfList pre.data s.data

/-! ## Data model

GitSyncConfig mirrors the interface of gitManager.ts lines 6-16.  The
optional string fields are modelled as plain strings where the empty
string plays the role of `undefined` (both are falsy in JavaScript, and
every test the source performs on them is a truthiness test). -/

structure GitSyncConfig where
  repoPath : String
  remoteUrl : String
  branch : String
  userName : String
  userEmail : String
  token : String
  sshKeyPath : String
  sshKeyPassphrase : String
  useSSH : Bool
deriving Repr, DecidableEq

/-- The fields of the simple-git status result that the source reads:
current branch, changed paths (`files`, as their path strings) and
conflicted paths, plus ahead/behind counters. -/
structure GitStatus where
  current : String
  files : List String
  conflicted : List String
  ahead : Nat
  behind : Nat
deriving Repr, DecidableEq

/-- Repository operations the orchestration code can invoke on the
underlying git library.  Each constructor corresponds to one call site
in gitManager.ts. -/
inductive RepoOp
  | revparseGitDir
  | gitInit
  | addConfig (key value : String)
  | getRemotes
  | removeRemote
  | addRemote (url : String)
  | branchLocal
  | checkoutBranch (b : String)
  | checkoutLocalBranch (b : String)
  | statusQ
  | revparseMergeHead
  | fetch (b : String)
  | pullNoRebase (b : String)
  | addAll
  | addFile (f : String)
  | checkoutOurs (f : String)
  | checkoutTheirs (f : String)
  | commitOp (msg : String)
  | commitNoEdit
  | push (b : String)
  | mergeAbort
deriving Repr, DecidableEq

/-- Outcome of the `git.fetch` call in pull (gitManager.ts lines 282-293).
`refNotFound` stands for an error whose message mentions a missing
remote ref; `otherError` is any other fetch failure. -/
inductive FetchResult
  | ok
  | refNotFound
  | otherError
deriving Repr, DecidableEq

/-- Environment describing the outcome of every primitive git call a
single sync cycle can make.  The orchestration code never retries, so
one outcome per call site suffices. -/
structure World where
  /-- `git rev-parse --git-dir` succeeds (the vault is already a repo). -/
  revparseOk : Bool
  /-- when rev-parse fails, its message says it is not a git repository. -/
  revparseNotRepoMsg : Bool
  gitInitOk : Bool
  /-- `git.getRemotes` succeeds. -/
  getRemotesOk : Bool
  /-- a remote named origin is registered. -/
  originExists : Bool
  /-- the SSH key file exists and is readable (fs checks, lines 40-64). -/
  sshKeyValid : Bool
  addRemoteOk : Bool
  /-- when addRemote fails, its message says the remote already exists. -/
  addRemoteExistsMsg : Bool
  addRemoteRetryOk : Bool
  localBranches : List String
  /-- `git.status()` at the start of pull; `none` means the call throws. -/
  statusBefore : Option GitStatus
  /-- `git rev-parse --verify MERGE_HEAD` succeeds. -/
  mergeHeadPresent : Bool
  fetchResult : FetchResult
  pullPasses : Bool
  /-- `git.status()` after the pull. -/
  statusAfterPull : Option GitStatus
  /-- `git.status()` in fullSync when no file list was passed. -/
  statusForFiles : Option GitStatus
  /-- `git.status()` in performSync when no file list was passed. -/
  statusAtPerform : Option GitStatus
  /-- `git.status()` at the start of commitAndPush. -/
  statusAtCommit : Option GitStatus
  commitOk : Bool
  pushOk : Bool
deriving Repr, DecidableEq

/-! ## setupAuthentication (gitManager.ts lines 69-145) -/

/-- Fallback URL when the SSH key is invalid but a token is configured
(lines 93-100): rewrite the SSH form to HTTPS and embed the token. -/
def sshFallbackUrl (cfg : GitSyncConfig) : String :=
  let u := replaceFirst cfg.remoteUrl "git@github.com:" "https://github.com/"
  let u := replaceFirst u ".git" "" ++ ".git"
  replaceFirst u "https://github.com/"
    ("https://x-access-token:" ++ cfg.token ++ "@github.com/")

/-- The remote URL that setupAuthentication registers (lines 86-120);
`none` means setupAuthentication returns false before registering
(SSH mode with an invalid key and no token). -/
def resolvedRemoteUrl (cfg : GitSyncConfig) (w : World) : Option String :=
  if cfg.useSSH then
    if !w.sshKeyValid then
      if cfg.token != "" then some (sshFallbackUrl cfg) else none
    else
      some (if startsWithStr cfg.remoteUrl "git@" then cfg.remoteUrl
            else replaceFirst cfg.remoteUrl "https://github.com/" "git@github.com:")
  else if cfg.token != "" then
    some (if containsStr cfg.remoteUrl "github.com" then
            replaceFirst cfg.remoteUrl "https://github.com/"
              ("https://x-access-token:" ++ cfg.token ++ "@github.com/")
          else cfg.remoteUrl)
  else
    some cfg.remoteUrl

/-- setupAuthentication: returns whether it succeeded and the git
operations it invoked, in order. -/
def setupAuth (cfg : GitSyncConfig) (w : World) : Bool × List RepoOp :=
  if cfg.remoteUrl = "" then (false, [])
  else
    let originThere := w.getRemotesOk && w.originExists
    match resolvedRemoteUrl cfg w with
    | none => (false, [RepoOp.getRemotes])
    | some url =>
      let ops1 := [RepoOp.getRemotes]
        ++ (if originThere then [RepoOp.removeRemote] else [])
        ++ [RepoOp.addRemote url]
      if w.addRemoteOk then (true, ops1)
      else if w.addRemoteExistsMsg then
        let ops2 := ops1 ++ [RepoOp.removeRemote, RepoOp.addRemote url]
        (w.addRemoteRetryOk, ops2)
      else (false, ops1)

/-! ## GitManager.initialize (gitManager.ts lines 150-239) -/

/-- URL completeness check inside GitManager.initialize (line 188):
the trimmed URL ends with a slash, or contains no slash at all and
splits into fewer than three slash-separated segments. -/
def urlIncompleteGM (url : String) : Bool :=
  endsWithStr url "/" ||
    (!containsStr url "/" && (splitOnChar '/' url).length < 3)

/-- GitManager.initialize: ensure the repository exists, validate the
remote URL, set the committer identity, run setupAuthentication, and
check out (or create) the configured branch.  Returns success plus the
operation log. -/
def initializeManager (cfg : GitSyncConfig) (w : World) : Bool × List RepoOp :=
  let repoOk :=
    if w.revparseOk then true
    else if w.revparseNotRepoMsg then w.gitInitOk
    else false
  let ops0 :=
    if w.revparseOk then [RepoOp.revparseGitDir]
    else if w.revparseNotRepoMsg then [RepoOp.revparseGitDir, RepoOp.gitInit]
    else [RepoOp.revparseGitDir]
  if !repoOk then (false, ops0)
  else if cfg.remoteUrl != "" && urlIncompleteGM (jsTrim cfg.remoteUrl) then
    (false, ops0)
  else
    let ops1 := ops0 ++ [RepoOp.addConfig "user.name" cfg.userName,
                         RepoOp.addConfig "user.email" cfg.userEmail]
    let auth := setupAuth cfg w
    let ops2 := ops1 ++ auth.2
    if !auth.1 then (false, ops2)
    else
      let branchOps := [RepoOp.branchLocal]
        ++ (if cfg.branch ∈ w.localBranches then [RepoOp.checkoutBranch cfg.branch]
            else [RepoOp.checkoutLocalBranch cfg.branch])
      (true, ops2 ++ branchOps)

/-! ## GitManager.pull (gitManager.ts lines 244-324) -/

/-- Body of pull, after the initialization check.  Returns success plus
the operation log.  A successful pull that leaves conflicted paths
still returns true (line 303); a ref-not-found fetch error returns
false without attempting the pull (lines 287-290); any other fetch
error falls through to the pull (lines 291-292).  The result of the
setupAuthentication call at line 276 is discarded by the source. -/
def pullBody (cfg : GitSyncConfig) (w : World) : Bool × List RepoOp :=
  match w.statusBefore with
  | none => (false, [RepoOp.statusQ])
  | some st =>
    let mergeOps := if st.current != cfg.branch then [RepoOp.revparseMergeHead] else []
    if st.current != cfg.branch && w.mergeHeadPresent then
      (false, [RepoOp.statusQ] ++ mergeOps)
    else
      let authOps :=
        if w.getRemotesOk && !w.originExists && cfg.remoteUrl != "" then
          (setupAuth cfg w).2
        else []
      let ops1 := [RepoOp.statusQ] ++ mergeOps ++ [RepoOp.getRemotes] ++ authOps
      match w.fetchResult with
      | FetchResult.refNotFound => (false, ops1 ++ [RepoOp.fetch cfg.branch])
      | _ =>
        let ops2 := ops1 ++ [RepoOp.fetch cfg.branch, RepoOp.pullNoRebase cfg.branch]
        if !w.pullPasses then (false, ops2)
        else
          match w.statusAfterPull with
          | none => (false, ops2 ++ [RepoOp.statusQ])
          | some _ => (true, ops2 ++ [RepoOp.statusQ])

/-- GitManager.pull, including the lazy initialization at lines 246-252. -/
def pullFull (cfg : GitSyncConfig) (w : World) (initialized : Bool) : Bool × List RepoOp :=
  if initialized then pullBody cfg w
  else
    let ini := initializeManager cfg w
    if !ini.1 then (false, ini.2)
    else
      let r := pullBody cfg w
      (r.1, ini.2 ++ r.2)

/-! ## GitManager.commitAndPush (gitManager.ts lines 329-371) -/

/-- Substitution of the files placeholder inside commitAndPush
(lines 349-357); the block text is identical to the one built by
getCommitMessage in main.ts. -/
def cpFinalMessage (message : String) (changedFiles : List String) : String :=
  if containsStr message "{files}" then
    replaceFirst message "{files}" (filesText changedFiles)
  else message

/-- GitManager.commitAndPush.  When the status reports no changed
files it returns true without staging, committing or pushing
(lines 338-341); otherwise it stages everything with an add-all
(line 347), commits the final message and pushes.  The explicit
`files` argument is used only for the message text (line 344).
The result of the lazy initialization at lines 331-333 is not
checked by the source. -/
def commitAndPush (cfg : GitSyncConfig) (w : World) (initialized : Bool)
    (message : String) (files : Option (List String)) : Bool × List RepoOp :=
  let initOps := if initialized then [] else (initializeManager cfg w).2
  match w.statusAtCommit with
  | none => (false, initOps ++ [RepoOp.statusQ])
  | some st =>
    let ops0 := initOps ++ [RepoOp.statusQ]
    if st.files.isEmpty then (true, ops0)
    else
      let changedFiles := files.getD st.files
      let finalMessage := cpFinalMessage message changedFiles
      let ops1 := ops0 ++ [RepoOp.addAll, RepoOp.commitOp (jsTrim finalMessage)]
      if !w.commitOk then (false, ops1)
      else if !w.pushOk then (false, ops1 ++ [RepoOp.push cfg.branch])
      else (true, ops1 ++ [RepoOp.push cfg.branch])

/-! ## GitManager.fullSync (gitManager.ts lines 400-434) -/

/-- One full sync cycle: pull, then commit and push.  When pull
succeeded, the manager is initialized, so commitAndPush runs with
`initialized = true`.  When no file list was passed, fullSync queries
the status to build one (lines 410-418); a failing query leaves the
list undefined. -/
def fullSync (cfg : GitSyncConfig) (w : World) (initialized : Bool)
    (commitMessage : String) (files : Option (List String)) : Bool × List RepoOp :=
  let p := pullFull cfg w initialized
  if !p.1 then (false, p.2)
  else
    let changed : Option (List String) :=
      match files with
      | some fs => some fs
      | none =>
        match w.statusForFiles with
        | some st => some st.files
        | none => none
    let statusOps := match files with
      | some _ => []
      | none => [RepoOp.statusQ]
    let cp := commitAndPush cfg w true commitMessage changed
    (cp.1, p.2 ++ statusOps ++ cp.2)

/-! ## Conflict queries (gitManager.ts lines 439-460)

Both queries swallow a failing status call: hasConflicts answers false
and getConflictedFiles answers the empty list. -/

def hasConflicts (statusRes : Option GitStatus) : Bool :=
  match statusRes with
  | some st => decide (st.conflicted.length > 0)
  | none => false

def getConflictedFiles (statusRes : Option GitStatus) : List String :=
  match statusRes with
  | some st => st.conflicted
  | none => []

/-! ## GitManager.resolveConflicts (gitManager.ts lines 465-496)

The repository-side effect of the git primitives is modelled from the
spec adapter contract (spec.md section 4.1): checking out one side of
a conflicted path changes only its content; staging a path clears its
unmerged state; a commit completes the interrupted merge, and git
refuses to commit while unmerged paths remain. -/

structure RepoState where
  conflicted : List String
  mergeInProgress : Bool
  commitCount : Nat
deriving Repr, DecidableEq

inductive Strategy
  | ours
  | theirs
deriving Repr, DecidableEq

/-- Staging a path marks it resolved: it leaves the conflict set. -/
def stagePath (st : RepoState) (f : String) : RepoState :=
  { st with conflicted := st.conflicted.filter (fun x => x != f) }

/-- The per-file loop of resolveConflicts (checkout one side, stage). -/
def applyResolutions (st : RepoState) (fs : List String) : RepoState :=
  fs.foldl stagePath st

/-- Operations issued by the per-file loop of resolveConflicts. -/
def resolutionOps (strat : Strategy) (fs : List String) : List RepoOp :=
  (fs.map (fun f =>
    [(match strat with
      | Strategy.ours => RepoOp.checkoutOurs f
      | Strategy.theirs => RepoOp.checkoutTheirs f),
     RepoOp.addFile f])).flatten

/-- GitManager.resolveConflicts.  `statusOk` is whether the status
query inside getConflictedFiles succeeds (a failing query yields the
empty list, lines 452-460).  An empty conflict set is a no-op
returning true (lines 469-472); otherwise each conflicted file is
checked out on the chosen side and staged, and the merge is completed
with a no-edit commit. -/
def resolveConflicts (strat : Strategy) (statusOk : Bool) (st : RepoState) :
    Bool × RepoState × List RepoOp :=
  let conflictedFiles := if statusOk then st.conflicted else []
  if conflictedFiles.isEmpty then (true, st, [RepoOp.statusQ])
  else
    let st1 := applyResolutions st conflictedFiles
    let ops := [RepoOp.statusQ] ++ resolutionOps strat conflictedFiles
      ++ [RepoOp.commitNoEdit]
    if st1.conflicted.isEmpty then
      (true, { st1 with mergeInProgress := false, commitCount := st1.commitCount + 1 }, ops)
    else (false, st1, ops)

/-! ## Plugin settings (settings.ts lines 4-32) -/

structure MyPluginSettings where
  githubRepoUrl : String
  githubBranch : String
  githubUserName : String
  githubUserEmail : String
  githubToken : String
  useSSH : Bool
  sshKeyPath : String
  sshKeyPassphrase : String
  autoSyncOnOpen : Bool
  autoSyncOnSave : Bool
  commitMessageTemplate : String
  syncInterval : Nat
deriving Repr, DecidableEq

def DEFAULT_SETTINGS : MyPluginSettings where
  githubRepoUrl := ""
  githubBranch := "main"
  githubUserName := "Obsidian User"
  githubUserEmail := "user@example.com"
  githubToken := ""
  useSSH := false
  sshKeyPath := "~/.ssh/id_rsa"
  sshKeyPassphrase := ""
  autoSyncOnOpen := true
  autoSyncOnSave := true
  commitMessageTemplate := "[Obsidian Sync] {date}{files}"
  syncInterval := 30

/-! ## MyPlugin.initializeGit (main.ts lines 256-308) -/

/-- The GitSyncConfig built from the settings (main.ts lines 280-290). -/
def mkConfig (settings : MyPluginSettings) (vaultPath : String) : GitSyncConfig where
  repoPath := vaultPath
  remoteUrl := settings.githubRepoUrl
  branch := settings.githubBranch
  userName := settings.githubUserName
  userEmail := settings.githubUserEmail
  token := settings.githubToken
  sshKeyPath := settings.sshKeyPath
  sshKeyPassphrase := settings.sshKeyPassphrase
  useSSH := settings.useSSH

/-- URL completeness check in initializeGit (main.ts line 266). -/
def urlIncompleteMain (repoUrl : String) : Bool :=
  endsWithStr repoUrl "/" ||
    (!containsStr repoUrl ".git" &&
      ((splitOnChar '/' repoUrl).filter (fun s => s != "")).length < 3)

/-- How a call to initializeGit ends: configuration rejected before any
repository operation, repository-side initialization failure, or
success. -/
inductive InitOutcome
  | ok
  | configInvalid
  | initFailed
deriving Repr, DecidableEq

/-- MyPlugin.initializeGit.  The URL checks at lines 258-270 run on
every call, before the git manager is consulted or created; only when
they pass and no manager exists yet is the manager created and
initialized. -/
def initializeGit (settings : MyPluginSettings) (vaultPath : String) (w : World)
    (gitManagerSet : Bool) : InitOutcome × List RepoOp :=
  if settings.githubRepoUrl = "" then (InitOutcome.configInvalid, [])
  else if urlIncompleteMain (jsTrim settings.githubRepoUrl) then
    (InitOutcome.configInvalid, [])
  else if gitManagerSet then (InitOutcome.ok, [])
  else
    let ini := initializeManager (mkConfig settings vaultPath) w
    (if ini.1 then InitOutcome.ok else InitOutcome.initFailed, ini.2)

/-! ## MyPlugin.performSync (main.ts lines 313-348) -/

/-- MyPlugin.performSync.  When no manager exists it runs initializeGit
first and stops on failure; then, when no explicit file list was
passed, it queries the status for one, builds the commit message from
the template, and runs fullSync. -/
def performSync (settings : MyPluginSettings) (vaultPath : String) (w : World)
    (gitManagerSet initialized : Bool) (dateStr : String)
    (changedFiles : Option (List String)) : Bool × List RepoOp :=
  let pre :=
    if gitManagerSet then (true, initialized, ([] : List RepoOp))
    else
      let ini := initializeGit settings vaultPath w false
      if ini.1 = InitOutcome.ok then (true, true, ini.2)
      else (false, false, ini.2)
  if !pre.1 then (false, pre.2.2)
  else
    let files : Option (List String) :=
      match changedFiles with
      | some fs => some fs
      | none =>
        match w.statusAtPerform with
        | some st => some st.files
        | none => none
    let statusOps : List RepoOp := match changedFiles with
      | some _ => []
      | none => [RepoOp.statusQ]
    let msg := getCommitMessage settings.commitMessageTemplate dateStr (files.getD [])
    let r := fullSync (mkConfig settings vaultPath) w pre.2.1 msg files
    (r.1, pre.2.2 ++ statusOps ++ r.2)

/-! ## Trigger admission (main.ts)

The MyPlugin class (main.ts lines 5-10) holds a settings object, the
git manager reference, the background interval handle, the last sync
timestamp and the debounce timer handle.  It holds NO in-flight flag,
and performSync (lines 313-348) neither checks nor sets one before
calling fullSync, so every arriving trigger starts a sync cycle
regardless of how many cycles are already running.  The step relation
below records exactly that: a start event is admitted in every state
and increments the number of in-flight cycles; a finish event ends one
cycle. -/

structure CoordState where
  gitManagerSet : Bool
  active : Nat
deriving Repr, DecidableEq

inductive SyncEvent
  | start
  | finish
deriving Repr, DecidableEq

def syncStep (s : CoordState) : SyncEvent → CoordState
  | SyncEvent.start => { s with active := s.active + 1 }
  | SyncEvent.finish => { s with active := s.active - 1 }

def runTriggers (s : CoordState) (es : List SyncEvent) : CoordState :=
  es.foldl syncStep s

/-! ## On-save debounce (main.ts lines 198-214)

Each modify event clears any pending debounce timer and arms a new one
that fires 2000 ms later, carrying the path of the file of THAT event.
The simulation processes save events in time order; a pending timer
whose deadline has passed fires (executing one sync with its stored
file) before the next event is handled, and a timer still pending
after the last event fires at its deadline. -/

def debounceMs : Nat := 2000

/-- Process save events given the currently armed timer (deadline and
stored file path); returns the file contexts of the sync executions,
in order. -/
def processSaves (pending : Option (Nat × String)) :
    List (Nat × String) → List String
  | [] =>
    match pending with
    | some (_, f) => [f]
    | none => []
  | (t, f) :: rest =>
    match pending with
    | some (ft, pf) =>
      if ft ≤ t then pf :: processSaves (some (t + debounceMs, f)) rest
      else processSaves (some (t + debounceMs, f)) rest
    | none => processSaves (some (t + debounceMs, f)) rest

/-- Run a sequence of on-save triggers (time, file path) from the idle
state and collect the sync executions they cause. -/
def onSaveRun (triggers : List (Nat × String)) : List String :=
  processSaves none triggers

/-- Every trigger in the list arrives before the deadline armed by the
previous one: times are nondecreasing and successive gaps are below
the debounce window. -/
def withinWindow : List (Nat × String) → Bool
  | [] => true
  | [_] => true
  | (t1, _) :: (t2, f2) :: rest =>
    (t1 ≤ t2 && t2 < t1 + debounceMs) && withinWindow ((t2, f2) :: rest)

/-- The last entry of a nonempty list, with its head made explicit. -/
def lastEntry (x : Nat × String) : List (Nat × String) → Nat × String
  | [] => x
  | y :: rest => lastEntry y rest

/-! ## Operation classifiers -/

/-- Operations that mutate the repository content or history:
staging, committing, pushing. -/
def isWriteOp : RepoOp → Bool
  | RepoOp.addAll => true
  | RepoOp.addFile _ => true
  | RepoOp.commitOp _ => true
  | RepoOp.commitNoEdit => true
  | RepoOp.push _ => true
  | _ => false

def noWriteOps (ops : List RepoOp) : Bool :=
  ops.all (fun op => !isWriteOp op)

/-- Is this operation the pull itself? -/
def isPullStep : RepoOp → Bool
  | RepoOp.pullNoRebase _ => true
  | _ => false

def isAddFileOp : RepoOp → Bool
  | RepoOp.addFile _ => true
  | _ => false

/-- Operations that repository setup (initialize / setupAuthentication)
can issue. -/
def isSetupOp : RepoOp → Bool
  | RepoOp.revparseGitDir => true
  | RepoOp.gitInit => true
  | RepoOp.addConfig _ _ => true
  | RepoOp.getRemotes => true
  | RepoOp.removeRemote => true
  | RepoOp.addRemote _ => true
  | RepoOp.branchLocal => true
  | RepoOp.checkoutBranch _ => true
  | RepoOp.checkoutLocalBranch _ => true
  | _ => false

/-- Strip the message carried by a commit operation, leaving every
other operation unchanged. -/
def eraseCommitMsg : RepoOp → RepoOp
  | RepoOp.commitOp _ => RepoOp.commitOp ""
  | op => op

/-! ## Concrete fixtures -/

def cfg1 : GitSyncConfig where
  repoPath := "/vault"
  remoteUrl := "https://github.com/user/repo.git"
  branch := "main"
  userName := "User"
  userEmail := "user@example.com"
  token := "tok"
  sshKeyPath := ""
  sshKeyPassphrase := ""
  useSSH := false

def cleanStatus : GitStatus where
  current := "main"
  files := []
  conflicted := []
  ahead := 0
  behind := 0

def conflictedStatus : GitStatus where
  current := "main"
  files := ["A.md", "B.md"]
  conflicted := ["A.md", "B.md"]
  ahead := 0
  behind := 1

/-- A world where every git call succeeds and the repository is clean. -/
def goodWorld : World where
  revparseOk := true
  revparseNotRepoMsg := false
  gitInitOk := true
  getRemotesOk := true
  originExists := true
  sshKeyValid := false
  addRemoteOk := true
  addRemoteExistsMsg := false
  addRemoteRetryOk := true
  localBranches := ["main"]
  statusBefore := some cleanStatus
  mergeHeadPresent := false
  fetchResult := FetchResult.ok
  pullPasses := true
  statusAfterPull := some cleanStatus
  statusForFiles := some cleanStatus
  statusAtPerform := some cleanStatus
  statusAtCommit := some cleanStatus
  commitOk := true
  pushOk := true

/-- A world where the pull succeeds but leaves A.md and B.md in
conflicted state (the conflicted paths also appear among the changed
files, as simple-git reports them). -/
def conflictWorld : World :=
  { goodWorld with
    statusAfterPull := some conflictedStatus,
    statusForFiles := some conflictedStatus,
    statusAtCommit := some conflictedStatus }

/-- A world where the fetch fails with a ref-not-found error. -/
def refMissingWorld : World :=
  { goodWorld with fetchResult := FetchResult.refNotFound }

/-! ## Helper lemmas about operation logs -/

theorem all_imp_all {p q : RepoOp → Bool} (h : ∀ op, p op = true → q op = true)
    {l : List RepoOp} (hl : l.all p = true) : l.all q = true := by
  simp only [List.all_eq_true] at hl ⊢
  exact fun op hop => h op (hl op hop)

theorem setupOp_not_write (op : RepoOp) (h : isSetupOp op = true) :
    (!isWriteOp op) = true := by
  cases op <;> first | rfl | simp [isSetupOp] at h

theorem setupOp_not_pull (op : RepoOp) (h : isSetupOp op = true) :
    (!isPullStep op) = true := by
  cases op <;> first | rfl | simp [isSetupOp] at h

theorem setupAuth_ops_setup (cfg : GitSyncConfig) (w : World) :
    (setupAuth cfg w).2.all isSetupOp = true := by
  unfold setupAuth
  dsimp only
  repeat' split
  all_goals simp [isSetupOp]

theorem initializeManager_ops_setup (cfg : GitSyncConfig) (w : World) :
    (initializeManager cfg w).2.all isSetupOp = true := by
  have ha := setupAuth_ops_setup cfg w
  unfold initializeManager
  dsimp only
  repeat' split
  all_goals simp [List.all_append, ha, isSetupOp]

theorem pullBody_noWrite (cfg : GitSyncConfig) (w : World) :
    noWriteOps (pullBody cfg w).2 = true := by
  have ha := all_imp_all setupOp_not_write (setupAuth_ops_setup cfg w)
  have ha2 : ∀ op ∈ (setupAuth cfg w).2, isWriteOp op = false := by
    intro op hop
    have hx := List.all_eq_true.mp ha op hop
    simpa using hx
  unfold pullBody noWriteOps
  dsimp only
  repeat' split
  all_goals simp [List.all_append, isWriteOp]
  all_goals exact ha2

theorem pullFull_noWrite (cfg : GitSyncConfig) (w : World) (init : Bool) :
    noWriteOps (pullFull cfg w init).2 = true := by
  have hi := all_imp_all setupOp_not_write (initializeManager_ops_setup cfg w)
  have hb := pullBody_noWrite cfg w
  simp only [noWriteOps] at hb
  unfold pullFull noWriteOps
  dsimp only
  repeat' split
  all_goals simp [List.all_append, hi, hb]

/-! ## Helper lemmas about the debounce simulation -/

theorem processSaves_armed (rest : List (Nat × String)) :
    ∀ t : Nat, ∀ f : String, withinWindow ((t, f) :: rest) = true →
      processSaves (some (t + debounceMs, f)) rest = [(lastEntry (t, f) rest).2] := by
  induction rest with
  | nil => intro t f _; rfl
  | cons hd tl ih =>
    intro t f hw
    obtain ⟨t2, f2⟩ := hd
    simp only [withinWindow, Bool.and_eq_true, decide_eq_true_eq] at hw
    obtain ⟨⟨hle, hlt⟩, hw2⟩ := hw
    have hlt2 : ¬ (t + debounceMs ≤ t2) := by omega
    show processSaves (some (t + debounceMs, f)) ((t2, f2) :: tl) = _
    simp only [processSaves, if_neg hlt2]
    have hw2b : withinWindow ((t2, f2) :: tl) = true := by
      simpa [withinWindow] using hw2
    exact ih t2 f2 hw2b

theorem getLast_eq_lastEntry (l : List (Nat × String)) :
    ∀ x : Nat × String, (x :: l).getLast? = some (lastEntry x l) := by
  induction l with
  | nil => intro x; rfl
  | cons y tl ih =>
    intro x
    rw [List.getLast?_cons_cons]
    exact ih y

/-! ## Helper lemmas about conflict resolution -/

theorem applyResolutions_clears (fs : List String) :
    ∀ st : RepoState, (∀ x ∈ st.conflicted, x ∈ fs) →
      (applyResolutions st fs).conflicted = [] := by
  induction fs with
  | nil =>
    intro st h
    have : st.conflicted = [] := by
      cases hc : st.conflicted with
      | nil => rfl
      | cons a l => exact absurd (h a (hc ▸ List.mem_cons_self a l)) (List.not_mem_nil a)
    simpa [applyResolutions] using this
  | cons f fs ih =>
    intro st h
    show (applyResolutions (stagePath st f) fs).conflicted = []
    apply ih
    intro x hx
    simp only [stagePath, List.mem_filter, bne_iff_ne, ne_eq, decide_eq_true_eq] at hx
    obtain ⟨hxm, hxne⟩ := hx
    have := h x hxm
    simp only [List.mem_cons] at this
    rcases this with h1 | h2
    · exact absurd h1 hxne
    · exact h2

theorem applyResolutions_preserves (fs : List String) :
    ∀ st : RepoState,
      (applyResolutions st fs).mergeInProgress = st.mergeInProgress ∧
      (applyResolutions st fs).commitCount = st.commitCount := by
  induction fs with
  | nil => intro st; exact ⟨rfl, rfl⟩
  | cons f fs ih => intro st; exact ih (stagePath st f)

/-! ## Claim theorems -/

/-- C1: the claim says a cycle that pulls into a conflicted state never
invokes commit or push.  The code violates this: in `conflictWorld` the
pull succeeds but leaves A.md and B.md conflicted (GitManager.pull
returns true in that case, gitManager.ts line 303), and fullSync then
proceeds to stage everything, commit and push (lines 420-425), with an
overall success result — silently committing the conflict markers
instead of waiting for an explicit resolution. -/
theorem conflictedPullStillCommitsAndPushes :
    (pullFull cfg1 conflictWorld true).1 = true ∧
    getConflictedFiles conflictWorld.statusAfterPull = ["A.md", "B.md"] ∧
    (fullSync cfg1 conflictWorld true "[Sync] now" none).1 = true ∧
    RepoOp.addAll ∈ (fullSync cfg1 conflictWorld true "[Sync] now" none).2 ∧
    RepoOp.commitOp "[Sync] now" ∈ (fullSync cfg1 conflictWorld true "[Sync] now" none).2 ∧
    RepoOp.push "main" ∈ (fullSync cfg1 conflictWorld true "[Sync] now" none).2 := by
  decide

/-- C2 counterexample: the claim says at most one sync cycle is active
under a burst of concurrent triggers.  The plugin keeps no in-flight
token (main.ts lines 5-10 and 313-348), so two concurrently admitted
triggers yield two simultaneously active cycles. -/
theorem twoTriggersYieldTwoActiveCycles :
    (runTriggers { gitManagerSet := true, active := 0 }
      [SyncEvent.start, SyncEvent.start]).active = 2 := by
  decide

/-- C2 amended: performSync enforces no mutual exclusion at all — a
burst of n concurrently admitted triggers yields n simultaneously
active sync cycles. -/
theorem triggerBurstAdmitsAll (s : CoordState) (n : Nat) :
    (runTriggers s (List.replicate n SyncEvent.start)).active = s.active + n := by
  induction n generalizing s with
  | zero => rfl
  | succ k ih =>
    rw [List.replicate_succ]
    have hstep : runTriggers s (SyncEvent.start :: List.replicate k SyncEvent.start) =
        runTriggers (syncStep s SyncEvent.start) (List.replicate k SyncEvent.start) := rfl
    rw [hstep, ih]
    show s.active + 1 + k = s.active + (k + 1)
    omega

/-- C3: a configuration whose remote URL is empty or ends with a
trailing slash is rejected by initializeGit as invalid before any
repository operation is performed (empty operation log), and a sync
entry point started without an existing manager therefore performs no
repository operation either. -/
theorem invalidUrlRejectedBeforeRepoOps (settings : MyPluginSettings)
    (vaultPath dateStr : String) (w : World) (files : Option (List String))
    (h : settings.githubRepoUrl = "" ∨
         endsWithStr (jsTrim settings.githubRepoUrl) "/" = true) :
    initializeGit settings vaultPath w false = (InitOutcome.configInvalid, []) ∧
    performSync settings vaultPath w false false dateStr files = (false, []) := by
  have hinit : initializeGit settings vaultPath w false =
      (InitOutcome.configInvalid, []) := by
    rcases h with h | h
    · simp [initializeGit, h]
    · by_cases he : settings.githubRepoUrl = ""
      · simp [initializeGit, he]
      · simp [initializeGit, he, urlIncompleteMain, h]
  refine ⟨hinit, ?_⟩
  simp [performSync, hinit]

theorem invalidUrlRejectedBeforeRepoOpsWitness :
    initializeGit { DEFAULT_SETTINGS with githubRepoUrl := "https://github.com/u/r/" }
      "/v" goodWorld false = (InitOutcome.configInvalid, []) ∧
    performSync { DEFAULT_SETTINGS with githubRepoUrl := "https://github.com/u/r/" }
      "/v" goodWorld false false "D" none = (false, []) :=
  invalidUrlRejectedBeforeRepoOps
    { DEFAULT_SETTINGS with githubRepoUrl := "https://github.com/u/r/" }
    "/v" "D" goodWorld none (Or.inr (by decide))

/-- C10: a failing status query makes hasConflicts answer false and
getConflictedFiles answer the empty list — exactly the answers given
for a clean repository, and no error is propagated. -/
theorem failedStatusReadsAsNoConflicts :
    hasConflicts none = false ∧
    getConflictedFiles none = [] ∧
    hasConflicts none = hasConflicts (some cleanStatus) ∧
    getConflictedFiles none = getConflictedFiles (some cleanStatus) := by
  decide

/-- C4 counterexample: the claim says a ref-not-found fetch failure is
tolerated as a soft warning and the pull is still attempted.  The code
does the opposite: in `refMissingWorld` the fetch fails with a
ref-not-found message, pull returns false, and no pull operation ever
appears in the log (gitManager.ts lines 287-290). -/
theorem refNotFoundAbortsWithoutPull :
    (pullFull cfg1 refMissingWorld true).1 = false ∧
    ((pullFull cfg1 refMissingWorld true).2.all (fun op => !isPullStep op)) = true ∧
    RepoOp.fetch "main" ∈ (pullFull cfg1 refMissingWorld true).2 := by
  decide

/-- C4 amended: a ref-not-found fetch error is fatal — the cycle fails
without attempting the pull; every OTHER fetch error is non-fatal and
the pull is still attempted with the non-rebasing merge strategy. -/
theorem fetchErrorTaxonomy (cfg : GitSyncConfig) (w : World) (st : GitStatus)
    (hst : w.statusBefore = some st)
    (hnm : st.current = cfg.branch ∨ w.mergeHeadPresent = false) :
    (w.fetchResult = FetchResult.refNotFound →
      (pullBody cfg w).1 = false ∧
      ((pullBody cfg w).2.all (fun op => !isPullStep op)) = true) ∧
    (w.fetchResult = FetchResult.otherError →
      RepoOp.pullNoRebase cfg.branch ∈ (pullBody cfg w).2) := by
  have hguard : (st.current != cfg.branch && w.mergeHeadPresent) = false := by
    rcases hnm with h | h
    · simp [h]
    · simp [h]
  have hsetup : ((setupAuth cfg w).2.all (fun op => !isPullStep op)) = true :=
    all_imp_all setupOp_not_pull (setupAuth_ops_setup cfg w)
  have hsetup2 : ∀ op ∈ (setupAuth cfg w).2, isPullStep op = false := by
    intro op hop
    have hx := List.all_eq_true.mp hsetup op hop
    simpa using hx
  constructor
  · intro hf
    unfold pullBody
    rw [hst]
    dsimp only
    rw [hguard, hf]
    repeat' split
    all_goals simp [List.all_append, isPullStep]
    all_goals exact hsetup2
  · intro hf
    unfold pullBody
    rw [hst]
    dsimp only
    rw [hguard, hf]
    repeat' split
    all_goals simp_all [List.mem_append]

theorem fetchErrorTaxonomyWitness :
    ((refMissingWorld.fetchResult = FetchResult.refNotFound →
      (pullBody cfg1 refMissingWorld).1 = false ∧
      ((pullBody cfg1 refMissingWorld).2.all (fun op => !isPullStep op)) = true) ∧
    (refMissingWorld.fetchResult = FetchResult.otherError →
      RepoOp.pullNoRebase cfg1.branch ∈ (pullBody cfg1 refMissingWorld).2)) :=
  fetchErrorTaxonomy cfg1 refMissingWorld cleanStatus rfl (Or.inl rfl)

/-- C5: when the status at commit time reports zero changed paths, the
cycle (whose pull succeeded) completes successfully and no staging,
commit or push operation is ever invoked — an empty diff never causes
a failure. -/
theorem emptyDiffNothingToSync (cfg : GitSyncConfig) (w : World) (init : Bool)
    (msg : String) (files : Option (List String)) (st : GitStatus)
    (hpull : (pullFull cfg w init).1 = true)
    (hst : w.statusAtCommit = some st)
    (hempty : st.files = []) :
    (fullSync cfg w init msg files).1 = true ∧
    noWriteOps (fullSync cfg w init msg files).2 = true := by
  have hnw := pullFull_noWrite cfg w init
  simp only [noWriteOps] at hnw
  have hnw2 : ∀ op ∈ (pullFull cfg w init).2, isWriteOp op = false := by
    intro op hop
    have hx := List.all_eq_true.mp hnw op hop
    simpa using hx
  have hcp : ∀ fs : Option (List String),
      commitAndPush cfg w true msg fs = (true, [RepoOp.statusQ]) := by
    intro fs
    unfold commitAndPush
    rw [hst]
    dsimp only
    simp [hempty]
  unfold fullSync
  dsimp only
  rw [hpull]
  simp only [Bool.not_true, Bool.false_eq_true, if_false]
  rw [hcp]
  cases files <;> simp [noWriteOps, List.all_append, isWriteOp] <;> exact hnw2

theorem emptyDiffNothingToSyncWitness :
    (fullSync cfg1 goodWorld true "m" none).1 = true ∧
    noWriteOps (fullSync cfg1 goodWorld true "m" none).2 = true :=
  emptyDiffNothingToSync cfg1 goodWorld true "m" none cleanStatus
    (by decide) rfl rfl

theorem strAppendData (a b : String) : (a ++ b).data = a.data ++ b.data := by
  cases a
  cases b
  rfl

/-- C6 counterexample: the claim says the produced message contains no
remaining literal files placeholder for EVERY template containing it.
JavaScript replace with a string pattern replaces only the first
occurrence, so a template with two occurrences keeps the second one. -/
theorem secondFilesPlaceholderSurvives :
    containsStr (getCommitMessage "{files} and {files}" "D" ["a.md"]) "{files}" = true := by
  decide

/-- C6 amended: for a non-empty file list the FIRST occurrence of the
files placeholder is replaced by the files block; the block lists the
first min(10, N) paths each as a dashed line and carries the and-N-more
suffix exactly when N exceeds 10; the single-occurrence template of the
claim round-trips as stated, with no placeholder left, and with 12
files exactly 10 paths are listed plus a suffix naming 2 more. -/
theorem commitTemplateFilesBlock (t d : String) (files : List String)
    (hne : files ≠ []) :
    getCommitMessage t d files =
      jsTrim (replaceFirst (replaceFirst t "{date}" d) "{files}" (filesText files)) ∧
    (filesLines files).length = min 10 files.length ∧
    (∀ p ∈ files.take 10, ("  - " ++ p) ∈ filesLines files) ∧
    (moreFilesStr files = "" ↔ files.length ≤ 10) ∧
    getCommitMessage "[Sync] {date}{files}" "D" ["a.md", "b.md"] =
      "[Sync] D\nArquivos alterados:\n  - a.md\n  - b.md" ∧
    containsStr (getCommitMessage "[Sync] {date}{files}" "D" ["a.md", "b.md"])
      "{files}" = false ∧
    (filesLines ["f01.md", "f02.md", "f03.md", "f04.md", "f05.md", "f06.md",
      "f07.md", "f08.md", "f09.md", "f10.md", "f11.md", "f12.md"]).length = 10 ∧
    moreFilesStr ["f01.md", "f02.md", "f03.md", "f04.md", "f05.md", "f06.md",
      "f07.md", "f08.md", "f09.md", "f10.md", "f11.md", "f12.md"] =
      "\n  ... e mais 2 arquivo(s)" := by
  refine ⟨?_, ?_, ?_, ⟨?_, ?_⟩, by decide, by decide, by decide, by decide⟩
  · have hie : files.isEmpty = false := by
      cases files with
      | nil => exact absurd rfl hne
      | cons a l => rfl
    simp [getCommitMessage, hie]
  · simp [filesLines]
  · intro p hp
    simp only [filesLines]
    exact List.mem_map_of_mem _ hp
  · intro hm
    by_contra hgt
    rw [Nat.not_le] at hgt
    simp only [moreFilesStr] at hm
    rw [if_pos hgt] at hm
    have hd := congrArg (fun s : String => s.data.length) hm
    simp only [strAppendData, List.length_append, List.length_cons,
      List.length_nil] at hd
    omega
  · intro hle
    have hn : ¬ (files.length > 10) := by omega
    simp only [moreFilesStr]
    rw [if_neg hn]

theorem commitTemplateFilesBlockWitness :
    getCommitMessage "[Sync] {date}{files}" "D" ["a.md", "b.md"] =
      jsTrim (replaceFirst (replaceFirst "[Sync] {date}{files}" "{date}" "D")
        "{files}" (filesText ["a.md", "b.md"])) ∧
    (filesLines ["a.md", "b.md"]).length = min 10 2 ∧
    (∀ p ∈ (["a.md", "b.md"] : List String).take 10,
      ("  - " ++ p) ∈ filesLines ["a.md", "b.md"]) ∧
    (moreFilesStr ["a.md", "b.md"] = "" ↔ (["a.md", "b.md"] : List String).length ≤ 10) ∧
    getCommitMessage "[Sync] {date}{files}" "D" ["a.md", "b.md"] =
      "[Sync] D\nArquivos alterados:\n  - a.md\n  - b.md" ∧
    containsStr (getCommitMessage "[Sync] {date}{files}" "D" ["a.md", "b.md"])
      "{files}" = false ∧
    (filesLines ["f01.md", "f02.md", "f03.md", "f04.md", "f05.md", "f06.md",
      "f07.md", "f08.md", "f09.md", "f10.md", "f11.md", "f12.md"]).length = 10 ∧
    moreFilesStr ["f01.md", "f02.md", "f03.md", "f04.md", "f05.md", "f06.md",
      "f07.md", "f08.md", "f09.md", "f10.md", "f11.md", "f12.md"] =
      "\n  ... e mais 2 arquivo(s)" :=
  commitTemplateFilesBlock "[Sync] {date}{files}" "D" ["a.md", "b.md"] (by decide)

/-- C7: resolveConflicts with the keep-local strategy on a repository
whose conflict set is the two files a and b succeeds, leaves zero
conflicted files, completes the interrupted merge with one commit, and
on an empty conflict set is a no-op returning success without
committing. -/
theorem keepLocalClearsConflicts (a b : String) (st : RepoState)
    (hc : st.conflicted = [a, b]) :
    (resolveConflicts Strategy.ours true st).1 = true ∧
    (resolveConflicts Strategy.ours true st).2.1.conflicted = [] ∧
    (resolveConflicts Strategy.ours true st).2.1.mergeInProgress = false ∧
    (resolveConflicts Strategy.ours true st).2.1.commitCount = st.commitCount + 1 ∧
    RepoOp.commitNoEdit ∈ (resolveConflicts Strategy.ours true st).2.2 ∧
    resolveConflicts Strategy.ours true { st with conflicted := [] } =
      (true, { st with conflicted := [] }, [RepoOp.statusQ]) := by
  obtain ⟨conf, merge, cnt⟩ := st
  simp only at hc
  subst hc
  have hclear : (applyResolutions ⟨[a, b], merge, cnt⟩ [a, b]).conflicted = [] :=
    applyResolutions_clears [a, b] ⟨[a, b], merge, cnt⟩ (fun x hx => hx)
  have hpres := applyResolutions_preserves [a, b] (⟨[a, b], merge, cnt⟩ : RepoState)
  have hval : resolveConflicts Strategy.ours true (⟨[a, b], merge, cnt⟩ : RepoState) =
      (true, (⟨[], false, cnt + 1⟩ : RepoState),
        [RepoOp.statusQ] ++ resolutionOps Strategy.ours [a, b] ++ [RepoOp.commitNoEdit]) := by
    unfold resolveConflicts
    simp [hclear, hpres.2]
  rw [hval]
  refine ⟨rfl, rfl, rfl, rfl, ?_, rfl⟩
  simp

theorem keepLocalClearsConflictsWitness :
    (resolveConflicts Strategy.ours true ⟨["A.md", "B.md"], true, 5⟩).1 = true ∧
    (resolveConflicts Strategy.ours true ⟨["A.md", "B.md"], true, 5⟩).2.1.conflicted = [] ∧
    (resolveConflicts Strategy.ours true
      ⟨["A.md", "B.md"], true, 5⟩).2.1.mergeInProgress = false ∧
    (resolveConflicts Strategy.ours true
      ⟨["A.md", "B.md"], true, 5⟩).2.1.commitCount = 5 + 1 ∧
    RepoOp.commitNoEdit ∈ (resolveConflicts Strategy.ours true
      ⟨["A.md", "B.md"], true, 5⟩).2.2 ∧
    resolveConflicts Strategy.ours true ⟨[], true, 5⟩ =
      (true, (⟨[], true, 5⟩ : RepoState), [RepoOp.statusQ]) :=
  keepLocalClearsConflicts "A.md" "B.md" ⟨["A.md", "B.md"], true, 5⟩ rfl

/-- C8: when every on-save trigger of a nonempty burst arrives inside
the debounce quiescence window of the previous one, exactly one sync
executes, and it carries the file of the last trigger. -/
theorem onSaveDebounceSingleSync (t : Nat) (f : String) (l : List (Nat × String))
    (hw : withinWindow ((t, f) :: l) = true) :
    onSaveRun ((t, f) :: l) = [(lastEntry (t, f) l).2] ∧
    (onSaveRun ((t, f) :: l)).length = 1 ∧
    ((t, f) :: l).getLast? = some (lastEntry (t, f) l) := by
  have h1 : onSaveRun ((t, f) :: l) = [(lastEntry (t, f) l).2] :=
    processSaves_armed l t f hw
  exact ⟨h1, by rw [h1]; rfl, getLast_eq_lastEntry l (t, f)⟩

theorem onSaveDebounceSingleSyncWitness :
    withinWindow [(0, "a.md"), (1000, "b.md"), (1900, "c.md")] = true ∧
    (onSaveRun [(0, "a.md"), (1000, "b.md"), (1900, "c.md")] = ["c.md"] ∧
     (onSaveRun [(0, "a.md"), (1000, "b.md"), (1900, "c.md")]).length = 1 ∧
     ([(0, "a.md"), (1000, "b.md"), (1900, "c.md")] : List (Nat × String)).getLast? =
       some (1900, "c.md")) :=
  ⟨by decide,
   onSaveDebounceSingleSync 0 "a.md" [(1000, "b.md"), (1900, "c.md")] (by decide)⟩

/-- C9: commitAndPush always stages with an add-all and never stages an
individual path; the explicit files argument changes at most the text
of the commit message — the operation logs for two different file
arguments agree once commit messages are erased, and the results are
identical. -/
theorem filesArgOnlyAffectsMessage (cfg : GitSyncConfig) (w : World)
    (msg : String) (f1 f2 : Option (List String)) (st : GitStatus)
    (hst : w.statusAtCommit = some st) (hne : st.files ≠ []) :
    RepoOp.addAll ∈ (commitAndPush cfg w true msg f1).2 ∧
    ((commitAndPush cfg w true msg f1).2.all (fun op => !isAddFileOp op)) = true ∧
    (commitAndPush cfg w true msg f1).2.map eraseCommitMsg =
      (commitAndPush cfg w true msg f2).2.map eraseCommitMsg ∧
    (commitAndPush cfg w true msg f1).1 = (commitAndPush cfg w true msg f2).1 := by
  have hie : st.files.isEmpty = false := by
    cases hf : st.files with
    | nil => exact absurd hf hne
    | cons a l => rfl
  unfold commitAndPush
  rw [hst]
  dsimp only
  simp only [hie, Bool.false_eq_true, if_false]
  by_cases hc : w.commitOk = true <;> by_cases hp : w.pushOk = true <;>
    simp [hc, hp, eraseCommitMsg, isAddFileOp]

theorem filesArgOnlyAffectsMessageWitness :
    RepoOp.addAll ∈ (commitAndPush cfg1 conflictWorld true "m" (some ["x.md"])).2 ∧
    ((commitAndPush cfg1 conflictWorld true "m" (some ["x.md"])).2.all
      (fun op => !isAddFileOp op)) = true ∧
    (commitAndPush cfg1 conflictWorld true "m" (some ["x.md"])).2.map eraseCommitMsg =
      (commitAndPush cfg1 conflictWorld true "m" none).2.map eraseCommitMsg ∧
    (commitAndPush cfg1 conflictWorld true "m" (some ["x.md"])).1 =
      (commitAndPush cfg1 conflictWorld true "m" none).1 :=
  filesArgOnlyAffectsMessage cfg1 conflictWorld "m" (some ["x.md"]) none
    conflictedStatus rfl (by decide)

end NetherPortal
